import Mathlib

/-!
Verification development for the queue / durable-object completion tracker
(src/src/index.ts).

The embedding is a shallow one:
- The Durable Object storage (keys amount_of_pages, finished_pages) becomes
  the structure DOState with one Option field per key; a missing key is none.
  The JavaScript Set of numbers is modelled as a Finset Int (the tracker only
  uses membership via add and size, never iteration order).
- Each Durable Object method (set_amount_of_pages, finished_page, is_finished,
  get_finished_pages, delete) becomes a pure function on DOState, translated
  line by line from the class MyDurableObject.
- The /send_to_queue handler becomes send_to_queue, parameterised by the
  generated document id, the current clock value, and the raw query string.
  Per the Workers runtime, Date.now does not advance inside a synchronous
  stretch of code (the Array.from callback contains no await), so the handler
  takes a single clock value now.
- The queue consumer body for one delivered message becomes queueStep, which
  returns the new storage state together with the ordered list of external
  effects the step performs (delay, completion record, terminal send, delete).
  Sequential consumption of a list of messages is runQueue, which also counts
  how many terminal end messages were emitted.
- The race between two consumers that interleave their awaited calls
  (finished_page, then is_finished, then send, then delete) is modelled by a
  micro-step machine (microStep / runSched) whose atomic units are exactly the
  awaited calls of the source.
-/

/-- Storage of one MyDurableObject instance: the two keys used by the source,
each absent (none) until first written; ctx.storage.deleteAll sets both to
none. -/
structure DOState where
  amount_of_pages : Option Int
  finished_pages : Option (Finset Int)
deriving DecidableEq

/-- A Durable Object whose storage was never written (or was deleted). -/
def emptyState : DOState := { amount_of_pages := none, finished_pages := none }

namespace MyDurableObject

/-- Embeds set_amount_of_pages: ctx.storage.put of the amount key. -/
def set_amount_of_pages (s : DOState) (amount : Int) : DOState :=
  { s with amount_of_pages := some amount }

/-- Embeds finished_page: read finished_pages with default new Set()
(a stored set, even empty, is truthy in JavaScript, so the default applies
exactly when the key is absent, i.e. getD), add the page, write back. -/
def finished_page (s : DOState) (page_num : Int) : DOState :=
  let finished_pages := s.finished_pages.getD ∅
  { s with finished_pages := some (insert page_num finished_pages) }

/-- Embeds is_finished: read both keys with defaults new Set() and 0, return
whether finished_pages.size === amount_of_pages (the size is a non-negative
number, the stored amount an integer, so the strict equality is the Int
equality on the cast cardinality). -/
def is_finished (s : DOState) : Bool :=
  let finished_pages := s.finished_pages.getD ∅
  let amount_of_pages := s.amount_of_pages.getD 0
  if (finished_pages.card : Int) = amount_of_pages then true else false

/-- Embeds get_finished_pages: read with default new Set(). -/
def get_finished_pages (s : DOState) : Finset Int :=
  s.finished_pages.getD ∅

/-- Embeds delete: ctx.storage.deleteAll removes every key. -/
def delete (_s : DOState) : DOState :=
  { amount_of_pages := none, finished_pages := none }

end MyDurableObject

/-- Accumulates the value of a decimal digit string. -/
def digitsToNat : List Char → Nat → Nat
  | [], acc => acc
  | c :: cs, acc => digitsToNat cs (acc * 10 + (c.toNat - '0'.toNat))

/-- Modelled JavaScript parseInt(s) with default radix on decimal input: skip
leading whitespace, read an optional sign, then the longest prefix of decimal
digits; none models NaN (no digits). The hexadecimal 0x special case of
parseInt is not modelled; no claim exercises it. -/
def parseIntJs (s : String) : Option Int :=
  let cs := s.data.dropWhile (fun c => c = ' ' ∨ c = '\t' ∨ c = '\n' ∨ c = '\r')
  match cs with
  | '-' :: rest =>
      let digits := rest.takeWhile Char.isDigit
      if digits = [] then none else some (-(digitsToNat digits 0 : Int))
  | '+' :: rest =>
      let digits := rest.takeWhile Char.isDigit
      if digits = [] then none else some ((digitsToNat digits 0 : Int))
  | _ =>
      let digits := cs.takeWhile Char.isDigit
      if digits = [] then none else some ((digitsToNat digits 0 : Int))

/-- The handler constant defaultAmount (the Cloudflare batch limit, 100, also
used as the default job size). -/
def defaultAmount : Int := 100

/-- Embeds the expression c.req.query(amount) || defaultAmount.toString():
an absent query value and the empty string are both falsy. -/
def amountQueryString (q : Option String) : String :=
  match q with
  | none => toString defaultAmount
  | some s => if s = "" then toString defaultAmount else s

/-- Embeds parseInt(... ) || defaultAmount: NaN and 0 are falsy, every other
integer (negative ones included) passes through. -/
def effectiveAmount (q : Option String) : Int :=
  match parseIntJs (amountQueryString q) with
  | none => defaultAmount
  | some v => if v = 0 then defaultAmount else v

/-- Discriminant of a queue message: the source type field is the string
literal page or the string literal end. -/
inductive MsgType where
  | page
  | endMsg
deriving DecidableEq

/-- Embeds the QueueMessage type of the source: page and total_pages are
optional fields. -/
structure QueueMessage where
  type : MsgType
  start_time : Int
  document_id : String
  page : Option Int := none
  total_pages : Option Int := none
deriving DecidableEq

/-- Embeds the Array.from({length: amount}, (_, i) => ...) message build: the
array-like length is coerced through ToLength, which clamps negative values to
0 (Int.toNat); entry i carries page i+1 and the shared amount, id and clock
value. -/
def buildMessages (doc : String) (now : Int) (amount : Int) : List QueueMessage :=
  (List.range amount.toNat).map fun (i : Nat) =>
    { type := MsgType.page
      start_time := now
      document_id := doc
      page := some ((i : Int) + 1)
      total_pages := some amount }

/-- Observable outcome of one GET /send_to_queue request: the generated
document id, the tracker storage after set_amount_of_pages, the single batch
passed to queue.sendBatch, and the response text. -/
structure SendToQueueResult where
  document_id : String
  tracker : DOState
  batch : List QueueMessage
  response : String
deriving DecidableEq

/-- Embeds the /send_to_queue handler: resolve the effective amount, store it
in the per-document Durable Object, build the page messages, submit them as
one sendBatch call, and answer with a text naming the document id. doc stands
for the randomly generated document_id and now for Date.now(). -/
def send_to_queue (doc : String) (now : Int) (q : Option String) : SendToQueueResult :=
  let amount := effectiveAmount q
  { document_id := doc
    tracker := MyDurableObject.set_amount_of_pages emptyState amount
    batch := buildMessages doc now amount
    response := "Document: " ++ doc ++ ". Sent " ++ toString amount ++ " messages to the queue!" }

/-- Tracker storage right after dispatch stored the amount N for a fresh
document (the storage held nothing before). -/
def initJob (N : Int) : DOState :=
  MyDurableObject.set_amount_of_pages emptyState N

/-- Reads the stored amount the way is_finished does: absent defaults to 0. -/
def amtRead (s : DOState) : Int :=
  s.amount_of_pages.getD 0

/-- External effects a single queue-consumer iteration performs, in program
order. delay is the awaited setTimeout; record is the finished_page call;
emitEnd is the queue.send of the terminal end message; destroy is the
stub.delete call. console.log calls that carry no state are kept only for the
end branch (logEnd). -/
inductive Effect where
  | delay
  | record (page : Int)
  | emitEnd (document_id : String) (start_time : Int)
  | destroy
  | logEnd (document_id : String)
deriving DecidableEq

/-- Embeds the body of the for loop of the queue consumer for one delivered
message, acting on the storage s of the Durable Object named by the message
document id. On type end it only logs. On type page it always performs the
delay; then, guarded by the truthiness of message.body.page (undefined and 0
are falsy), it calls finished_page, and if is_finished then holds it sends the
terminal end message and deletes the storage, in that order. -/
def queueStep (s : DOState) (m : QueueMessage) : DOState × List Effect :=
  match m.type with
  | MsgType.endMsg => (s, [Effect.logEnd m.document_id])
  | MsgType.page =>
      match m.page with
      | none => (s, [Effect.delay])
      | some p =>
          if p = 0 then (s, [Effect.delay])
          else
            let s1 := MyDurableObject.finished_page s p
            if MyDurableObject.is_finished s1 then
              (MyDurableObject.delete s1,
                [Effect.delay, Effect.record p,
                  Effect.emitEnd m.document_id m.start_time, Effect.destroy])
            else
              (s1, [Effect.delay, Effect.record p])

/-- Counts the terminal end submissions among the effects of one step. -/
def countEmits : List Effect → Nat
  | [] => 0
  | Effect.emitEnd _ _ :: rest => countEmits rest + 1
  | _ :: rest => countEmits rest

/-- Sequential consumption of a list of delivered messages by the worker
loop, returning the final storage state and the total number of terminal end
messages emitted along the way. -/
def runQueue : DOState → List QueueMessage → DOState × Nat
  | s, [] => (s, 0)
  | s, m :: rest =>
      let step := queueStep s m
      let r := runQueue step.1 rest
      (r.1, countEmits step.2 + r.2)

/-- A page message as dispatched (and as possibly re-delivered) for document
doc with clock t, page p out of tot. -/
def pMsg (doc : String) (t : Int) (tot : Int) (p : Int) : QueueMessage :=
  { type := MsgType.page, start_time := t, document_id := doc
    page := some p, total_pages := some tot }

/-- A terminal end message for document doc as the worker emits it (no page
and no total_pages field). -/
def eMsg (doc : String) (t : Int) : QueueMessage :=
  { type := MsgType.endMsg, start_time := t, document_id := doc }

/-- One concurrently running consumer in the race model: the page it carries,
its program counter, and whether its is_finished read came back true. pc 0 is
before the awaited finished_page call, pc 1 before the awaited is_finished
call, pc 2 before the awaited queue.send of the end message, pc 3 before the
awaited delete, pc 4 done. A consumer whose is_finished read returns false
jumps from pc 1 straight to pc 4. -/
structure CWorker where
  page : Int
  pc : Nat
  observed : Bool
deriving DecidableEq

/-- Shared state of the race model: the storage of the one Durable Object all
the consumers address, the consumers, and how many terminal end messages have
been sent. -/
structure RaceState where
  store : DOState
  workers : List CWorker
  emits : Nat
deriving DecidableEq

/-- One micro step: consumer i performs its next awaited call. The atomic
units are exactly the awaited calls of the source page branch; between two
of them any other consumer may run, which is what a schedule expresses. -/
def microStep (st : RaceState) (i : Nat) : RaceState :=
  match st.workers[i]? with
  | none => st
  | some w =>
      match w.pc with
      | 0 =>
          { st with
            store := MyDurableObject.finished_page st.store w.page
            workers := st.workers.set i { w with pc := 1 } }
      | 1 =>
          if MyDurableObject.is_finished st.store then
            { st with workers := st.workers.set i { w with pc := 2, observed := true } }
          else
            { st with workers := st.workers.set i { w with pc := 4 } }
      | 2 =>
          { st with
            emits := st.emits + 1
            workers := st.workers.set i { w with pc := 3 } }
      | 3 =>
          { st with
            store := MyDurableObject.delete st.store
            workers := st.workers.set i { w with pc := 4 } }
      | _ => st

/-- Runs a schedule, i.e. a sequence of consumer indices, from a race state. -/
def runSched (st : RaceState) (sched : List Nat) : RaceState :=
  sched.foldl microStep st

/-- Freshly initialised job of size 2 with two consumers, one holding page 1
and one holding page 2, none having run yet. -/
def raceInit : RaceState :=
  { store := initJob 2
    workers := [{ page := 1, pc := 0, observed := false },
                { page := 2, pc := 0, observed := false }]
    emits := 0 }


lemma get_finished_pages_finished_page (s : DOState) (p : Int) :
    MyDurableObject.get_finished_pages (MyDurableObject.finished_page s p) =
      insert p (MyDurableObject.get_finished_pages s) := rfl

lemma amtRead_finished_page (s : DOState) (p : Int) :
    amtRead (MyDurableObject.finished_page s p) = amtRead s := rfl

lemma delete_eq_emptyState (s : DOState) : MyDurableObject.delete s = emptyState := rfl

lemma amtRead_emptyState : amtRead emptyState = 0 := rfl

lemma is_finished_true_iff (s : DOState) :
    MyDurableObject.is_finished s = true ↔
      ((MyDurableObject.get_finished_pages s).card : Int) = amtRead s := by
  simp only [MyDurableObject.is_finished, MyDurableObject.get_finished_pages, amtRead]
  split <;> simp_all

lemma runQueue_cons (s : DOState) (m : QueueMessage) (L : List QueueMessage) :
    (runQueue s (m :: L)).2 = countEmits (queueStep s m).2 + (runQueue (queueStep s m).1 L).2 :=
  rfl

lemma runQueue_cons_state (s : DOState) (m : QueueMessage) (L : List QueueMessage) :
    (runQueue s (m :: L)).1 = (runQueue (queueStep s m).1 L).1 :=
  rfl

lemma queueStep_end (s : DOState) (m : QueueMessage) (h : m.type = MsgType.endMsg) :
    queueStep s m = (s, [Effect.logEnd m.document_id]) := by
  rcases m with ⟨mt, st, doc, pg, tot⟩
  cases h
  rfl

lemma queueStep_page_fire (s : DOState) (m : QueueMessage) (p : Int)
    (htype : m.type = MsgType.page) (hp : m.page = some p) (hp0 : p ≠ 0)
    (hfin : MyDurableObject.is_finished (MyDurableObject.finished_page s p) = true) :
    queueStep s m = (emptyState,
      [Effect.delay, Effect.record p,
        Effect.emitEnd m.document_id m.start_time, Effect.destroy]) := by
  rcases m with ⟨mt, st, doc, pg, tot⟩
  cases htype
  cases hp
  simp only [queueStep]
  rw [if_neg hp0]
  simp [hfin, delete_eq_emptyState]

lemma queueStep_page_quiet (s : DOState) (m : QueueMessage) (p : Int)
    (htype : m.type = MsgType.page) (hp : m.page = some p) (hp0 : p ≠ 0)
    (hfin : MyDurableObject.is_finished (MyDurableObject.finished_page s p) = false) :
    queueStep s m = (MyDurableObject.finished_page s p, [Effect.delay, Effect.record p]) := by
  rcases m with ⟨mt, st, doc, pg, tot⟩
  cases htype
  cases hp
  simp only [queueStep]
  rw [if_neg hp0]
  simp [hfin]

lemma queueStep_dead (s : DOState) (m : QueueMessage) (h : amtRead s = 0) :
    countEmits (queueStep s m).2 = 0 ∧ amtRead (queueStep s m).1 = 0 := by
  rcases m with ⟨mt, st, doc, pg, tot⟩
  cases mt with
  | endMsg => exact ⟨rfl, h⟩
  | page =>
      cases pg with
      | none => exact ⟨rfl, h⟩
      | some p =>
          by_cases hp0 : p = 0
          · subst hp0
            exact ⟨rfl, h⟩
          · have hfin : MyDurableObject.is_finished (MyDurableObject.finished_page s p) = false := by
              rw [Bool.eq_false_iff, Ne, is_finished_true_iff,
                get_finished_pages_finished_page, amtRead_finished_page, h]
              have hpos : 0 < (insert p (MyDurableObject.get_finished_pages s)).card :=
                Finset.card_pos.2 ⟨p, Finset.mem_insert_self p _⟩
              intro hcontra
              omega
            rw [queueStep_page_quiet s _ p rfl rfl hp0 hfin]
            exact ⟨rfl, by rw [amtRead_finished_page]; exact h⟩

lemma runQueue_dead (L : List QueueMessage) :
    ∀ s : DOState, amtRead s = 0 → (runQueue s L).2 = 0 := by
  induction L with
  | nil => intro s _; rfl
  | cons m rest ih =>
      intro s h
      obtain ⟨h1, h2⟩ := queueStep_dead s m h
      rw [runQueue_cons, h1, ih _ h2]

lemma queueStep_emits (s : DOState) (m : QueueMessage) :
    (countEmits (queueStep s m).2 = 0 ∧ amtRead (queueStep s m).1 = amtRead s) ∨
    (countEmits (queueStep s m).2 = 1 ∧ (queueStep s m).1 = emptyState) := by
  rcases m with ⟨mt, st, doc, pg, tot⟩
  cases mt with
  | endMsg => exact Or.inl ⟨rfl, rfl⟩
  | page =>
      cases pg with
      | none => exact Or.inl ⟨rfl, rfl⟩
      | some p =>
          by_cases hp0 : p = 0
          · subst hp0
            exact Or.inl ⟨rfl, rfl⟩
          · cases hfin : MyDurableObject.is_finished (MyDurableObject.finished_page s p) with
            | true =>
                rw [queueStep_page_fire s _ p rfl rfl hp0 hfin]
                exact Or.inr ⟨rfl, rfl⟩
            | false =>
                rw [queueStep_page_quiet s _ p rfl rfl hp0 hfin]
                exact Or.inl ⟨rfl, rfl⟩

lemma runQueue_le_one (L : List QueueMessage) :
    ∀ s : DOState, (runQueue s L).2 ≤ 1 := by
  induction L with
  | nil => intro s; exact Nat.zero_le 1
  | cons m rest ih =>
      intro s
      rw [runQueue_cons]
      rcases queueStep_emits s m with ⟨h1, _⟩ | ⟨h1, h2⟩
      · rw [h1]
        simpa using ih (queueStep s m).1
      · rw [h1, h2, runQueue_dead rest emptyState rfl]

lemma countEmits_fire (p : Int) (doc : String) (t : Int) :
    countEmits [Effect.delay, Effect.record p, Effect.emitEnd doc t, Effect.destroy] = 1 := rfl

lemma countEmits_quiet (p : Int) :
    countEmits [Effect.delay, Effect.record p] = 0 := rfl

lemma runQueue_live (N : Int) (hN : 1 ≤ N) :
    ∀ (L : List QueueMessage) (s : DOState),
      amtRead s = N →
      MyDurableObject.get_finished_pages s ⊆ Finset.Icc 1 N →
      (MyDurableObject.get_finished_pages s).card < N.toNat →
      (∀ m ∈ L, m.type = MsgType.page ∧ ∃ p, m.page = some p ∧ 1 ≤ p ∧ p ≤ N) →
      (∀ q : Int, 1 ≤ q → q ≤ N → q ∉ MyDurableObject.get_finished_pages s →
        ∃ m ∈ L, m.page = some q) →
      (runQueue s L).2 = 1 := by
  intro L
  induction L with
  | nil =>
      intro s hamt hsub hcard _ hcover
      exfalso
      have hIcc : Finset.Icc (1 : Int) N ⊆ MyDurableObject.get_finished_pages s := by
        intro q hq
        by_contra hq2
        obtain ⟨m, hm, _⟩ :=
          hcover q (Finset.mem_Icc.1 hq).1 (Finset.mem_Icc.1 hq).2 hq2
        exact (List.not_mem_nil m) hm
      have heq : MyDurableObject.get_finished_pages s = Finset.Icc 1 N :=
        Finset.Subset.antisymm hsub hIcc
      rw [heq, Int.card_Icc] at hcard
      omega
  | cons m rest ih =>
      intro s hamt hsub hcard hmsgs hcover
      obtain ⟨htype, p, hp, hp1, hpN⟩ := hmsgs m (List.mem_cons_self m rest)
      have hp0 : p ≠ 0 := by omega
      have hpmem : p ∈ Finset.Icc (1 : Int) N := Finset.mem_Icc.2 ⟨hp1, hpN⟩
      have hsub1 : insert p (MyDurableObject.get_finished_pages s) ⊆ Finset.Icc 1 N :=
        Finset.insert_subset hpmem hsub
      rw [runQueue_cons]
      cases hfin : MyDurableObject.is_finished (MyDurableObject.finished_page s p) with
      | true =>
          rw [queueStep_page_fire s m p htype hp hp0 hfin]
          rw [countEmits_fire, runQueue_dead rest emptyState rfl]
      | false =>
          rw [queueStep_page_quiet s m p htype hp hp0 hfin, countEmits_quiet]
          rw [Nat.zero_add]
          apply ih (MyDurableObject.finished_page s p)
          · rw [amtRead_finished_page]; exact hamt
          · rw [get_finished_pages_finished_page]; exact hsub1
          · rw [get_finished_pages_finished_page]
            have hle : (insert p (MyDurableObject.get_finished_pages s)).card ≤
                (Finset.Icc (1 : Int) N).card := Finset.card_le_card hsub1
            rw [Int.card_Icc] at hle
            have hne : ¬ ((insert p (MyDurableObject.get_finished_pages s)).card : Int) = N := by
              intro hEq
              have : MyDurableObject.is_finished (MyDurableObject.finished_page s p) = true := by
                rw [is_finished_true_iff, get_finished_pages_finished_page,
                  amtRead_finished_page, hamt]
                exact hEq
              rw [hfin] at this
              exact Bool.false_ne_true this
            omega
          · intro m' hm'
            exact hmsgs m' (List.mem_cons_of_mem m hm')
          · intro q h1 h2 hq
            rw [get_finished_pages_finished_page, Finset.mem_insert] at hq
            push_neg at hq
            obtain ⟨m', hm', hm'page⟩ := hcover q h1 h2 hq.2
            rcases List.mem_cons.1 hm' with rfl | hm'rest
            · rw [hp] at hm'page
              exact absurd (Option.some.inj hm'page).symm hq.1
            · exact ⟨m', hm'rest, hm'page⟩

lemma runQueue_subset (N : Int) :
    ∀ (L : List QueueMessage) (s : DOState),
      (∀ m ∈ L, m.type = MsgType.endMsg ∨
        (m.type = MsgType.page ∧ ∃ p, m.page = some p ∧ 1 ≤ p ∧ p ≤ N)) →
      MyDurableObject.get_finished_pages s ⊆ Finset.Icc 1 N →
      MyDurableObject.get_finished_pages (runQueue s L).1 ⊆ Finset.Icc 1 N := by
  intro L
  induction L with
  | nil => intro s _ hsub; exact hsub
  | cons m rest ih =>
      intro s hmsgs hsub
      rw [runQueue_cons_state]
      apply ih (queueStep s m).1 (fun m' h' => hmsgs m' (List.mem_cons_of_mem m h'))
      rcases hmsgs m (List.mem_cons_self m rest) with htype | ⟨htype, p, hp, hp1, hpN⟩
      · rw [queueStep_end s m htype]
        exact hsub
      · have hp0 : p ≠ 0 := by omega
        cases hfin : MyDurableObject.is_finished (MyDurableObject.finished_page s p) with
        | true =>
            rw [queueStep_page_fire s m p htype hp hp0 hfin]
            intro x hx
            simp [MyDurableObject.get_finished_pages, emptyState] at hx
        | false =>
            rw [queueStep_page_quiet s m p htype hp hp0 hfin,
              get_finished_pages_finished_page]
            exact Finset.insert_subset (Finset.mem_Icc.2 ⟨hp1, hpN⟩) hsub

/-- Claim C1: for every job initialised with N >= 1 expected pages, and every
sequential delivery of page work-items that contains each page 1..N at least
once (arbitrary duplicates, arbitrary order), the completion observation
(finished_page then is_finished returning true, which emits the terminal end
item and deletes the job state) occurs exactly once across the sequence: the
run emits exactly one end message. -/
theorem c1_terminal_exactly_once (N : Int) (L : List QueueMessage)
    (hN : 1 ≤ N)
    (hmsgs : ∀ m ∈ L, m.type = MsgType.page ∧ ∃ p, m.page = some p ∧ 1 ≤ p ∧ p ≤ N)
    (hcover : ∀ q : Int, 1 ≤ q → q ≤ N → ∃ m ∈ L, m.page = some q) :
    (runQueue (initJob N) L).2 = 1 := by
  apply runQueue_live N hN L (initJob N) rfl
  · intro x hx
    simp [initJob, MyDurableObject.get_finished_pages,
      MyDurableObject.set_amount_of_pages, emptyState] at hx
  · have hempty : MyDurableObject.get_finished_pages (initJob N) = ∅ := rfl
    rw [hempty, Finset.card_empty]
    omega
  · exact hmsgs
  · intro q h1 h2 _
    exact hcover q h1 h2

/-- Witness for C1 at N = 2 with the delivery [page 1, page 2, page 1]. -/
theorem c1_terminal_exactly_once_witness :
    (runQueue (initJob 2) [pMsg "d" 0 2 1, pMsg "d" 0 2 2, pMsg "d" 0 2 1]).2 = 1 :=
  c1_terminal_exactly_once 2 [pMsg "d" 0 2 1, pMsg "d" 0 2 2, pMsg "d" 0 2 1]
    (by omega)
    (by
      intro m hm
      rcases List.mem_cons.1 hm with rfl | hm
      · exact ⟨rfl, 1, rfl, by omega, by omega⟩
      rcases List.mem_cons.1 hm with rfl | hm
      · exact ⟨rfl, 2, rfl, by omega, by omega⟩
      rcases List.mem_cons.1 hm with rfl | hm
      · exact ⟨rfl, 1, rfl, by omega, by omega⟩
      exact absurd hm (List.not_mem_nil m))
    (by
      intro q h1 h2
      have hq : q = 1 ∨ q = 2 := by omega
      rcases hq with rfl | rfl
      · exact ⟨pMsg "d" 0 2 1, List.mem_cons_self _ _, rfl⟩
      · exact ⟨pMsg "d" 0 2 2, List.mem_cons_of_mem _ (List.mem_cons_self _ _), rfl⟩)

/-- Claim C6: recording a completion is idempotent: finished_page applied
twice with the same page equals finished_page applied once (so the second
call never grows finished_pages), and no run of the worker loop, duplicates
included, ever emits the terminal end message a second time (at most one
emission from any storage state over any delivered message list). -/
theorem c6_idempotent_no_double_fire :
    (∀ (s : DOState) (p : Int),
      MyDurableObject.finished_page (MyDurableObject.finished_page s p) p =
        MyDurableObject.finished_page s p) ∧
    (∀ (s : DOState) (L : List QueueMessage), (runQueue s L).2 ≤ 1) := by
  constructor
  · intro s p
    simp [MyDurableObject.finished_page]
  · intro s L
    exact runQueue_le_one L s

/-- Claim C7: from dispatch with effective size N (N >= 0), under worker
processing of any list of channel-deliverable items (end markers, and page
items with pages in 1..N, in any order with any duplication), the reached
storage always satisfies finished_pages as a subset of [1, N], and its size
never exceeds N. -/
theorem c7_invariant (N : Int) (L : List QueueMessage)
    (hN : 0 ≤ N)
    (hmsgs : ∀ m ∈ L, m.type = MsgType.endMsg ∨
      (m.type = MsgType.page ∧ ∃ p, m.page = some p ∧ 1 ≤ p ∧ p ≤ N)) :
    MyDurableObject.get_finished_pages (runQueue (initJob N) L).1 ⊆ Finset.Icc 1 N ∧
    ((MyDurableObject.get_finished_pages (runQueue (initJob N) L).1).card : Int) ≤ N := by
  have hsub : MyDurableObject.get_finished_pages (runQueue (initJob N) L).1 ⊆
      Finset.Icc 1 N := by
    apply runQueue_subset N L (initJob N) hmsgs
    intro x hx
    simp [initJob, MyDurableObject.get_finished_pages,
      MyDurableObject.set_amount_of_pages, emptyState] at hx
  refine ⟨hsub, ?_⟩
  have hle := Finset.card_le_card hsub
  rw [Int.card_Icc] at hle
  omega

/-- Witness for C7 at N = 2 with a duplicate page and an end marker. -/
theorem c7_invariant_witness :
    MyDurableObject.get_finished_pages
        (runQueue (initJob 2) [pMsg "d" 0 2 1, eMsg "d" 0, pMsg "d" 0 2 1]).1 ⊆
      Finset.Icc 1 2 ∧
    ((MyDurableObject.get_finished_pages
        (runQueue (initJob 2) [pMsg "d" 0 2 1, eMsg "d" 0, pMsg "d" 0 2 1]).1).card : Int) ≤ 2 :=
  c7_invariant 2 [pMsg "d" 0 2 1, eMsg "d" 0, pMsg "d" 0 2 1]
    (by omega)
    (by
      intro m hm
      rcases List.mem_cons.1 hm with rfl | hm
      · exact Or.inr ⟨rfl, 1, rfl, by omega, by omega⟩
      rcases List.mem_cons.1 hm with rfl | hm
      · exact Or.inl rfl
      rcases List.mem_cons.1 hm with rfl | hm
      · exact Or.inr ⟨rfl, 1, rfl, by omega, by omega⟩
      exact absurd hm (List.not_mem_nil m))

/-- Claim C8: whenever a worker step deletes the job state, the step is the
firing step and its effect sequence is exactly delay, record, emit end,
destroy: the terminal end item is submitted to the channel strictly before
the persisted state is deleted, never the reverse. -/
theorem c8_emit_before_destroy (s : DOState) (m : QueueMessage)
    (h : Effect.destroy ∈ (queueStep s m).2) :
    ∃ p, m.page = some p ∧
      (queueStep s m).2 = [Effect.delay, Effect.record p,
        Effect.emitEnd m.document_id m.start_time, Effect.destroy] := by
  rcases m with ⟨mt, st, doc, pg, tot⟩
  cases mt with
  | endMsg => simp [queueStep] at h
  | page =>
      cases pg with
      | none => simp [queueStep] at h
      | some p =>
          by_cases hp0 : p = 0
          · subst hp0
            simp [queueStep] at h
          · cases hfin : MyDurableObject.is_finished (MyDurableObject.finished_page s p) with
            | true =>
                refine ⟨p, rfl, ?_⟩
                rw [queueStep_page_fire s _ p rfl rfl hp0 hfin]
            | false =>
                rw [queueStep_page_quiet s _ p rfl rfl hp0 hfin] at h
                simp at h

/-- Witness for C8: the firing step of a size-1 job. -/
theorem c8_emit_before_destroy_witness :
    ∃ p, (pMsg "d" 7 1 1).page = some p ∧
      (queueStep (initJob 1) (pMsg "d" 7 1 1)).2 = [Effect.delay, Effect.record p,
        Effect.emitEnd (pMsg "d" 7 1 1).document_id (pMsg "d" 7 1 1).start_time,
        Effect.destroy] :=
  c8_emit_before_destroy (initJob 1) (pMsg "d" 7 1 1) (by decide)

/-- Claim C10: a delivered page item whose page field is absent or 0 is
consumed after only the processing delay: no completion is recorded, no
completeness check runs, nothing is emitted, nothing is deleted, and the
storage is unchanged. -/
theorem c10_falsy_page_noop (s : DOState) (m : QueueMessage)
    (htype : m.type = MsgType.page)
    (hpage : m.page = none ∨ m.page = some 0) :
    queueStep s m = (s, [Effect.delay]) := by
  rcases m with ⟨mt, st, doc, pg, tot⟩
  cases htype
  rcases hpage with h | h
  · cases h
    rfl
  · cases h
    rfl

/-- Witness for C10: page field absent. -/
theorem c10_falsy_page_noop_witness :
    queueStep (initJob 3)
        { type := MsgType.page, start_time := 0, document_id := "d" } =
      (initJob 3, [Effect.delay]) :=
  c10_falsy_page_noop (initJob 3)
    { type := MsgType.page, start_time := 0, document_id := "d" } rfl (Or.inl rfl)

lemma buildMessages_length (doc : String) (now : Int) (amount : Int) :
    (buildMessages doc now amount).length = amount.toNat := by
  unfold buildMessages
  rw [List.length_map, List.length_range]

lemma send_to_queue_batch_length (doc : String) (now : Int) (q : Option String) :
    (send_to_queue doc now q).batch.length = (effectiveAmount q).toNat :=
  buildMessages_length doc now (effectiveAmount q)

/-- Claim C2 is refuted by the code: the completion check is not one atomic
read-modify-write but two separately awaited calls (finished_page, then
is_finished). For a fresh job of size 2 with two consumers, one per page,
the schedule that runs both finished_page calls before either is_finished
read makes both consumers observe true, so both emit the terminal end
message: two emissions and two true observations instead of exactly one. -/
theorem c2_race_double_emission :
    (runSched raceInit [0, 1, 0, 1, 0, 0, 1, 1]).emits = 2 ∧
    ((runSched raceInit [0, 1, 0, 1, 0, 0, 1, 1]).workers.filter
      (fun w => w.observed)).length = 2 := by decide

/-- Claim C3 is refuted by the code at a concrete input: run a size-3 job to
completion (pages 1, 2, duplicate 1, 3); the firing step deletes the storage,
and the subsequent status snapshot reports finished = true (an empty set has
size 0, which equals the defaulted amount 0), not finished = false as the
claim states. The page set is empty as claimed. -/
theorem c3_counterexample :
    MyDurableObject.is_finished
        (runQueue (initJob 3)
          [pMsg "d" 0 3 1, pMsg "d" 0 3 2, pMsg "d" 0 3 1, pMsg "d" 0 3 3]).1 = true ∧
    MyDurableObject.get_finished_pages
        (runQueue (initJob 3)
          [pMsg "d" 0 3 1, pMsg "d" 0 3 2, pMsg "d" 0 3 1, pMsg "d" 0 3 3]).1 = ∅ := by
  decide

/-- Claim C3 as amended: for a destroyed (or never initialised) job, the
snapshot is empty but reports finished = true, not false: get_finished_pages
returns the empty set, and is_finished returns true because the empty set
size 0 equals the defaulted amount 0. No stale page set survives destroy. -/
theorem c3_amended_deleted_snapshot (s : DOState) :
    MyDurableObject.get_finished_pages (MyDurableObject.delete s) = ∅ ∧
    MyDurableObject.is_finished (MyDurableObject.delete s) = true ∧
    MyDurableObject.get_finished_pages emptyState = ∅ ∧
    MyDurableObject.is_finished emptyState = true :=
  ⟨rfl, rfl, rfl, rfl⟩

/-- Claim C4 is refuted by the code at a concrete input: the requested size
-5 parses (parseInt gives -5), is nonzero and hence truthy, so no fallback to
100 happens: the job is initialised with amount -5 and the Array.from length
coercion produces zero page items. -/
theorem c4_counterexample :
    parseIntJs (amountQueryString (some "-5")) = some (-5) ∧
    effectiveAmount (some "-5") = -5 ∧
    (send_to_queue "d" 0 (some "-5")).tracker.amount_of_pages = some (-5) ∧
    (send_to_queue "d" 0 (some "-5")).batch.length = 0 := by
  refine ⟨by decide, by decide, ?_, ?_⟩
  · simp [send_to_queue, MyDurableObject.set_amount_of_pages, emptyState]
    decide
  · simp [send_to_queue, buildMessages]
    decide

/-- Claim C4 as amended: only a requested size that fails to parse or parses
to exactly 0 falls back to the default 100 (initialising the job with 100
expected pages and producing exactly 100 page items); a size parsing to a
negative value is not defaulted. -/
theorem c4_default_on_unparsable_or_zero (doc : String) (now : Int) (q : Option String)
    (h : parseIntJs (amountQueryString q) = none ∨
      parseIntJs (amountQueryString q) = some 0) :
    effectiveAmount q = 100 ∧
    (send_to_queue doc now q).tracker.amount_of_pages = some 100 ∧
    (send_to_queue doc now q).batch.length = 100 := by
  have hamt : effectiveAmount q = 100 := by
    unfold effectiveAmount
    rcases h with h | h <;> rw [h] <;> simp [defaultAmount]
  refine ⟨hamt, ?_, ?_⟩
  · simp [send_to_queue, MyDurableObject.set_amount_of_pages, emptyState, hamt]
  · rw [send_to_queue_batch_length, hamt]
    rfl

/-- Witness for the amended C4 with a non-numeric requested size. -/
theorem c4_default_on_unparsable_or_zero_witness :
    effectiveAmount (some "abc") = 100 ∧
    (send_to_queue "d" 0 (some "abc")).tracker.amount_of_pages = some 100 ∧
    (send_to_queue "d" 0 (some "abc")).batch.length = 100 :=
  c4_default_on_unparsable_or_zero "d" 0 (some "abc") (Or.inl (by decide))

/-- Claim C5 is refuted by the code at a concrete input: for the requested
size 250 dispatch neither rejects nor chunks; it submits a single sendBatch
call whose batch holds 250 items, exceeding the transport limit of 100. -/
theorem c5_counterexample :
    effectiveAmount (some "250") = 250 ∧
    (send_to_queue "d" 0 (some "250")).batch.length = 250 ∧
    100 < (send_to_queue "d" 0 (some "250")).batch.length := by
  have hamt : effectiveAmount (some "250") = 250 := by decide
  have hlen : (send_to_queue "d" 0 (some "250")).batch.length = 250 := by
    rw [send_to_queue_batch_length, hamt]
    rfl
  exact ⟨hamt, hlen, by omega⟩

/-- Claim C5 as amended: dispatch always submits every built item in one
single batch (the batch length is the whole effective amount), so whenever
the effective size exceeds 100 the one submitted batch is larger than the
transport limit; no rejection or chunking happens in dispatch. -/
theorem c5_single_oversized_batch (doc : String) (now : Int) (q : Option String)
    (h : 100 < effectiveAmount q) :
    (send_to_queue doc now q).batch.length = (effectiveAmount q).toNat ∧
    100 < ((send_to_queue doc now q).batch.length : Int) := by
  have hlen : (send_to_queue doc now q).batch.length = (effectiveAmount q).toNat :=
    send_to_queue_batch_length doc now q
  refine ⟨hlen, ?_⟩
  rw [hlen]
  omega

/-- Witness for the amended C5 at the requested size 250. -/
theorem c5_single_oversized_batch_witness :
    (send_to_queue "d" 0 (some "250")).batch.length = (effectiveAmount (some "250")).toNat ∧
    100 < ((send_to_queue "d" 0 (some "250")).batch.length : Int) :=
  c5_single_oversized_batch "d" 0 (some "250") (by decide)

/-- Claim C9: for every effective size N >= 1 (the amount after defaulting),
dispatch stores expected_pages = N for the fresh document, submits as a
single batch exactly N work-items, all of kind page, carrying the pages
1..N in order (so each exactly once), total_pages = N, the shared document
id and the shared start_time, and returns a response naming that document
id. -/
theorem c9_dispatch_shape (doc : String) (now : Int) (q : Option String)
    (hN : 1 ≤ effectiveAmount q) :
    (send_to_queue doc now q).document_id = doc ∧
    (send_to_queue doc now q).tracker.amount_of_pages = some (effectiveAmount q) ∧
    (((send_to_queue doc now q).batch.length : Int) = effectiveAmount q) ∧
    (∀ m ∈ (send_to_queue doc now q).batch,
      m.type = MsgType.page ∧ m.document_id = doc ∧ m.start_time = now ∧
        m.total_pages = some (effectiveAmount q)) ∧
    (send_to_queue doc now q).batch.map QueueMessage.page =
      (List.range (effectiveAmount q).toNat).map (fun (i : Nat) => some ((i : Int) + 1)) ∧
    (∃ a b : String, (send_to_queue doc now q).response = a ++ doc ++ b) := by
  refine ⟨rfl, rfl, ?_, ?_, ?_, ?_⟩
  · rw [send_to_queue_batch_length]
    omega
  · intro m hm
    have hm2 : m ∈ buildMessages doc now (effectiveAmount q) := hm
    unfold buildMessages at hm2
    rw [List.mem_map] at hm2
    obtain ⟨i, _, rfl⟩ := hm2
    exact ⟨rfl, rfl, rfl, rfl⟩
  · show (buildMessages doc now (effectiveAmount q)).map QueueMessage.page = _
    unfold buildMessages
    rw [List.map_map]
    rfl
  · refine ⟨"Document: ",
      ". Sent " ++ toString (effectiveAmount q) ++ " messages to the queue!", ?_⟩
    show "Document: " ++ doc ++ ". Sent " ++ toString (effectiveAmount q) ++
        " messages to the queue!" = _
    simp [String.append_assoc]

/-- Witness for C9 at the requested size 3. -/
theorem c9_dispatch_shape_witness :
    (send_to_queue "d" 5 (some "3")).document_id = "d" ∧
    (send_to_queue "d" 5 (some "3")).tracker.amount_of_pages = some (effectiveAmount (some "3")) ∧
    (((send_to_queue "d" 5 (some "3")).batch.length : Int) = effectiveAmount (some "3")) ∧
    (∀ m ∈ (send_to_queue "d" 5 (some "3")).batch,
      m.type = MsgType.page ∧ m.document_id = "d" ∧ m.start_time = 5 ∧
        m.total_pages = some (effectiveAmount (some "3"))) ∧
    (send_to_queue "d" 5 (some "3")).batch.map QueueMessage.page =
      (List.range (effectiveAmount (some "3")).toNat).map (fun (i : Nat) => some ((i : Int) + 1)) ∧
    (∃ a b : String, (send_to_queue "d" 5 (some "3")).response = a ++ "d" ++ b) :=
  c9_dispatch_shape "d" 5 (some "3") (by decide)
